import Mathlib

/-!
Shallow embedding of `model_developement.py`: a grid-search CNN trainer with
expanding-window time-series cross-validation, partitioned model batches and
resumable per-batch reports.  Python lists become `List`, Python dicts become
ordered association lists, Python strings become `List Char`, and the
side-effecting orchestration `auto_grid_cv` becomes a pure fold that logs its
filesystem events.  Opaque framework objects (compiled Keras models, metric
histories) are type parameters.
-/

set_option autoImplicit false

/-! ### Embeddings of the Python string primitives used by the source -/

/-- Decimal digit character, embedding Python's rendering of a digit `n < 10`. -/
def digitChar (n : Nat) : Char :=
  if n = 0 then '0' else if n = 1 then '1' else if n = 2 then '2'
  else if n = 3 then '3' else if n = 4 then '4' else if n = 5 then '5'
  else if n = 6 then '6' else if n = 7 then '7' else if n = 8 then '8' else '9'

/-- Helper for `natRepr`: the accumulator collects less-significant digits.
Structural recursion on a fuel argument (any fuel above the value works, see
`natReprAux_fuel`) so that the definition evaluates by kernel reduction. -/
def natReprAux : Nat → Nat → List Char → List Char
  | 0, _, acc => acc
  | fuel + 1, n, acc =>
    if n < 10 then digitChar n :: acc
    else natReprAux fuel (n / 10) (digitChar (n % 10) :: acc)

/-- Decimal rendering of a natural number, embedding the Python f-string
interpolation `f"{n}"` of a non-negative `int`. -/
def natRepr (n : Nat) : List Char := natReprAux (n + 1) n []

/-- Decimal rendering of a Python `int` (possibly negative). -/
def intRepr (i : Int) : List Char :=
  if i < 0 then '-' :: natRepr i.natAbs else natRepr i.toNat

/-- Embedding of Python `int(s)` on a decimal digit string (the only strings
the source applies it to, via `get_partition_number`). -/
def pyInt (s : List Char) : Nat :=
  s.foldl (fun a c => a * 10 + (c.toNat - 48)) 0

/-- Embedding of Python `str.startswith`. -/
def startsWithL : List Char → List Char → Bool
  | _, [] => true
  | [], _ :: _ => false
  | c :: s, p :: ps => c == p && startsWithL s ps

/-- Embedding of Python `str.replace` (replaces every occurrence, scanning left
to right; the source only ever calls it with the non-empty pattern `"models"`). -/
def pyReplace : List Char → List Char → List Char → List Char
  | [], _, _ => []
  | c :: rest, pat, rep =>
    if h : pat ≠ [] ∧ startsWithL (c :: rest) pat = true then
      rep ++ pyReplace ((c :: rest).drop pat.length) pat rep
    else
      c :: pyReplace rest pat rep
termination_by s _ _ => s.length
decreasing_by
  · simp only [List.length_drop, List.length_cons]
    have hp : 1 ≤ pat.length := by
      cases pat with
      | nil => exact absurd rfl h.1
      | cons p ps => simp
    omega
  · simp

/-- Embedding of Python `str.split("s")` as used by `get_partition_number`. -/
def pySplitS : List Char → List (List Char)
  | [] => [[]]
  | c :: rest =>
    if c = 's' then [] :: pySplitS rest
    else
      match pySplitS rest with
      | [] => [[c]]
      | g :: gs => (c :: g) :: gs

/-! ### Partitioner: `partitions_split` (lines 146-157), `dict_partitions`
(lines 159-173), `get_partition_number` (lines 175-181) -/

/-- The batch list built in the `else` branch of `partitions_split`:
`self.all_models[x * partition_length:(x + 1) * partition_length]` for
`x in range(ceil(len(self.all_models) / partition_length))`.  For
`0 < partition_length`, `ceil(len / L)` is `(len + L - 1) / L` over `Nat`. -/
def partition_batches {M : Type} (all_models : List M) (partition_length : Nat) :
    List (List M) :=
  (List.range ((all_models.length + partition_length - 1) / partition_length)).map
    (fun x => (all_models.drop (x * partition_length)).take partition_length)

/-- `Model_Development.partitions_split`.  The Python function returns a value
of two different shapes: when `len(self.all_models) <= partition_length` it
returns `list(self.all_models)` — a flat copy of the model sequence itself —
and otherwise a list of batches.  The sum type records which shape was
returned (`inl` = flat model list, `inr` = list of batches). -/
def partitions_split {M : Type} (all_models : List M) (partition_length : Nat) :
    List M ⊕ List (List M) :=
  if all_models.length ≤ partition_length then Sum.inl all_models
  else Sum.inr (partition_batches all_models partition_length)

/-- The dictionary key `f"models{n}"` used by `dict_partitions`. -/
def mkKey (n : Nat) : List Char := ("models".data) ++ natRepr n

/-- `Model_Development.dict_partitions`, as an insertion-ordered association
list.  In the `len <= partition_length` branch the stored value is
`self.partitions_split(partition_length)`, which in that branch is the flat
copy `list(self.all_models)` (i.e. `Sum.inl all_models`); in the other branch
the entries come from `enumerate(self.partitions_split(partition_length))`,
which there is the batch list. -/
def dict_partitions {M : Type} (all_models : List M) (partition_length : Nat) :
    List (List Char × List M) :=
  if all_models.length ≤ partition_length then
    [(mkKey partition_length, all_models)]
  else
    (partition_batches all_models partition_length).enum.map
      (fun p => (mkKey ((p.1 + 1) * partition_length), p.2))

/-- `Model_Development.get_partition_number`: `int(key.split("s")[1])` over the
keys of `self.dict_partitions()` (called with the default length 60). -/
def get_partition_number {M : Type} (all_models : List M) : List Nat :=
  (dict_partitions all_models 60).map
    (fun kv => pyInt ((pySplitS kv.1).getD 1 []))

/-- `__init__` (line 54) stores the placeholder `self.all_models = ""`; the
empty string has length 0 and iterates to no elements, so it behaves exactly
like the empty model list. -/
def init_all_models : List Char := "".data

/-! ### Combination generator: `all_combinations` (lines 56-68) -/

/-- The five hyper-parameter ranges supplied by the external `parameters`
module. -/
structure CNN_hyper_params where
  filter_num1 : List Nat
  filter_num2 : List Nat
  num_of_dense : List Nat
  dense_len1 : List Nat
  dense_len2 : List Nat

/-- `Model_Development.all_combinations`: `itertools.product` of the five
ranges (rightmost factor varying fastest), truncated to the first 10 entries
in `"test"` mode.  The body contains no `raise`; for a running mode that is
neither `"full"` nor `"test"` Python falls through and returns `None`,
embedded as `none` (unreachable after `__init__`'s mode validation).
`combinations_product` is the local variable `combinations` (lines 60-63). -/
def combinations_product (hp : CNN_hyper_params) :
    List (Nat × Nat × Nat × Nat × Nat) :=
  hp.filter_num1.flatMap (fun a =>
    hp.filter_num2.flatMap (fun b =>
      hp.num_of_dense.flatMap (fun c =>
        hp.dense_len1.flatMap (fun d =>
          hp.dense_len2.map (fun e => (a, b, c, d, e))))))

def all_combinations (hp : CNN_hyper_params) (mode : String) :
    Option (List (Nat × Nat × Nat × Nat × Nat)) :=
  if mode = "full" then some (combinations_product hp)
  else if mode = "test" then some ((combinations_product hp).take 10)
  else none

/-! ### Model factory: `model_builder` (lines 74-130) -/

/-- One Keras layer of the fixed topology, with the initializer object kept
abstract (type `I`).  Strides/padding/bias flags are constant in the source
and omitted. -/
inductive Layer (I : Type) where
  | conv1d (filters kernel_size : Nat) (init : I)
  | prelu (init : I)
  | maxpool
  | flatten
  | dense (units : Nat) (init : I)
  deriving DecidableEq

/-- `Model_Development.model_builder` as the ordered list of layers added to
the `Sequential` model.  The second `Conv1D` has
`filters=conv2_filter_num` and `kernel_size=floor(filter_size / 2)`. -/
def model_builder {I : Type} (conv1_filter_num conv2_filter_num num_of_dense
    dense1_length dense2_length : Nat) (init_method : I)
    (filter_size : Nat := 5) : List (Layer I) :=
  [Layer.conv1d conv1_filter_num filter_size init_method,
   Layer.prelu init_method,
   Layer.maxpool,
   Layer.conv1d conv2_filter_num (filter_size / 2) init_method,
   Layer.prelu init_method,
   Layer.maxpool,
   Layer.flatten] ++
  ((List.range num_of_dense).flatMap (fun i =>
    if i < 1 then [Layer.dense dense1_length init_method, Layer.prelu init_method]
    else [Layer.dense dense2_length init_method, Layer.prelu init_method])) ++
  [Layer.dense 1 init_method, Layer.prelu init_method]

/-! ### Reporter: `reporting` (lines 183-192) -/

/-- A Keras `history.history` dict: metric names in insertion order plus the
per-epoch value list of each metric (values of abstract type `V`).  The
source always receives a history containing the key `"loss"`. -/
structure Hist (V : Type) where
  keys : List String
  vals : String → List V

/-- One row of the report DataFrame: the `models` column (the model index),
the 1-based `epochs` column, and one value per metric column. -/
abbrev Row (V : Type) := Int × Nat × List (String × V)

/-- `Model_Development.reporting`: one row per epoch of `results["loss"]`,
with the constant model index, the epoch number `1..n`, and each metric's
value at that epoch. -/
def reporting {V : Type} [Inhabited V] (model : Int) (results : Hist V) :
    List (Row V) :=
  (List.range (results.vals ("loss")).length).map
    (fun e =>
      (model, e + 1,
       results.keys.map (fun k => (k, (results.vals k).getD e default))))

/-! ### Resume guard: `existence_check` (lines 194-199) -/

/-- `Model_Development.existence_check`: replace `"models"` by `"report"` in
the partition key and test whether any file of the current directory listing
starts with the result. -/
def existence_check (files : List (List Char)) (item : List Char) : Bool :=
  let file_name := pyReplace item ("models".data) ("report".data)
  files.any (fun file => startsWithL file file_name)

/-! ### `sklearn.model_selection.TimeSeriesSplit` and the fit-call slices
(lines 212 and 223-231 / 247 and 251-259) -/

/-- `list(TimeSeriesSplit(n_splits=K).split(data))` for `n_samples` samples
(default `test_size`, no gap): fold `i` is the pair (train index range
`[0, test_start_i)`, test index range `[test_start_i, test_start_i +
test_size)`) with `test_size = n_samples // (K + 1)` and
`test_start_i = n_samples - (K - i) * test_size`. -/
def timeSeriesSplit (n_splits n_samples : Nat) : List (List Nat × List Nat) :=
  let test_size := n_samples / (n_splits + 1)
  (List.range n_splits).map (fun i =>
    let test_start := n_samples - (n_splits - i) * test_size
    (List.range test_start,
     (List.range test_size).map (fun j => test_start + j)))

/-- The data slices the source actually passes to `model.fit` for fold `i`
(lines 223-230): `x = training_data[:len(series_cv[i][0])]` and
`validation_data = training_data[:len(series_cv[i][1])]` — both are prefixes
of the series, of the lengths of the fold's index arrays. -/
def fit_slices {D : Type} (training_data : List D)
    (series_cv : List (List Nat × List Nat)) (i : Nat) : List D × List D :=
  (training_data.take (series_cv.getD i ([], [])).1.length,
   training_data.take (series_cv.getD i ([], [])).2.length)

/-- Follows the claim's wording, for comparison with `fit_slices`: the series
slice over the validation index range of fold `i`, i.e. the segment that
immediately follows the fold's train range. -/
def spec_validation_slice {D : Type} [Inhabited D] (training_data : List D)
    (series_cv : List (List Nat × List Nat)) (i : Nat) : List D :=
  (series_cv.getD i ([], [])).2.map (fun ix => training_data.getD ix default)

/-! ### Cross-validation trainer and orchestration: `auto_grid_cv`
(lines 201-235) -/

/-- The model index `ind + partition_numb[numb_ind] - 60` computed at lines
232-234 (and identically at lines 260-262 of `manual_grid_cv`), as a Python
`int`. -/
def model_index (ind partition_numb_val : Nat) : Int :=
  (ind : Int) + (partition_numb_val : Int) - 60

/-- The inner fold loop (lines 222-231): `for i in range(len(series_cv)):
history = model.fit(...)`.  `fit` abstracts one `model.fit` call on fold `i`
(the data slices it receives are studied via `fit_slices`); it returns the
mutated model and that fold's history.  The result is the final model state,
the value of the `history` variable after the loop (`none` would be Python's
`NameError` case `folds = 0`, never reached since `TimeSeriesSplit` requires
`n_splits >= 2`), and the list of fold indices fitted, in order. -/
def cv_model_loop {M V : Type} (fit : M → Nat → M × Hist V) (model : M)
    (folds : Nat) : M × Option (Hist V) × List Nat :=
  (List.range folds).foldl
    (fun st i =>
      let r := fit st.1 i
      (r.1, some r.2, st.2.2 ++ [i]))
    (model, none, [])

/-- The rows `self.reporting(ind + partition_numb[numb_ind] - 60,
history.history)` contributes for one model (line 232): built from the
history left in the `history` variable after the fold loop. -/
def model_rows {M V : Type} [Inhabited V] (fit : M → Nat → M × Hist V)
    (model : M) (folds : Nat) (idx : Int) : List (Row V) :=
  match (cv_model_loop fit model folds).2.1 with
  | some h => reporting idx h
  | none => []

/-- A logged filesystem/training event of `auto_grid_cv`. -/
inductive Ev (V : Type) where
  | mkdir (dir : List Char)
  | fit (partition_numb_val ind fold : Nat)
  | save (path : List Char)
  | csv (path : List Char) (rows : List (Row V))
  deriving DecidableEq

/-- The ambient collaborators of `auto_grid_cv`: the starting directory
listing (`os.listdir()`), the fold count `self.params.folds`
(`len(series_cv)`), and the abstract `model.fit` collaborator. -/
structure Env (M V : Type) where
  files : List (List Char)
  folds : Nat
  fit : M → Nat → M × Hist V

/-- `f"saved_models{partition_numb[numb_ind]}_{now}"` (line 220). -/
def dirName (k : Nat) (now : List Char) : List Char :=
  ("saved_models".data) ++ natRepr k ++ ("_".data) ++ now

/-- `f"report{partition_numb[numb_ind]}_{now}.csv"` (line 235). -/
def reportFile (k : Nat) (now : List Char) : List Char :=
  ("report".data) ++ natRepr k ++ ("_".data) ++ now ++ (".csv".data)

/-- `f"saved_models{...}_{now}/model_{ind + partition_numb[numb_ind] - 60}.h5"`
(lines 233-234). -/
def savePath (k : Nat) (now : List Char) (idx : Int) : List Char :=
  dirName k now ++ ("/model_".data) ++ intRepr idx ++ (".h5".data)

/-- The body of `auto_grid_cv`'s `for part in partitions` loop for one
partition `p = (partition_numb[numb_ind], key, batch)`, acting on the state
`(report, events)`.  A partition whose report already exists is skipped
(only a `print`); otherwise the batch directory is created, every model is
cross-validation trained, its rows are appended to the *shared* `report`
accumulator (initialized once at line 211, i.e. outside this loop), the
model is saved, and finally the accumulated `report` is written to the
batch's csv file. -/
def auto_batch_step {M V : Type} [Inhabited V] (env : Env M V) (now : List Char)
    (st : List (Row V) × List (Ev V)) (p : Nat × List Char × List M) :
    List (Row V) × List (Ev V) :=
  if existence_check env.files p.2.1 then st
  else
    let K := p.1
    let st1 := p.2.2.enum.foldl
      (fun st2 q =>
        let rows := model_rows env.fit q.2 env.folds (model_index q.1 K)
        (st2.1 ++ rows,
         st2.2
           ++ ((cv_model_loop env.fit q.2 env.folds).2.2.map
                 (fun i => Ev.fit K q.1 i))
           ++ [Ev.save (savePath K now (model_index q.1 K))]))
      (st.1, st.2 ++ [Ev.mkdir (dirName K now)])
    (st1.1, st1.2 ++ [Ev.csv (reportFile K now) st1.1])

/-- `Model_Development.auto_grid_cv` (lines 201-235): iterate the partitions
dictionary in order, pairing each partition with
`partition_numb[numb_ind]` (the counter `numb_ind` advances once per
partition, so the zip reproduces the indexing), starting from the empty
`report` DataFrame created at line 211.  Returns the final `report`
accumulator and the ordered event log. -/
def auto_grid_cv {M V : Type} [Inhabited V] (env : Env M V)
    (all_models : List M) (now : List Char) :
    List (Row V) × List (Ev V) :=
  ((get_partition_number all_models).zip (dict_partitions all_models 60)).foldl
    (auto_batch_step env now) ([], [])

/-- The csv files written during a run, with their tables, in order. -/
def csv_tables {V : Type} (evs : List (Ev V)) :
    List (List Char × List (Row V)) :=
  evs.filterMap (fun e =>
    match e with
    | Ev.csv p r => some (p, r)
    | _ => none)

/-! ### Concrete collaborators used by witnesses and evaluations -/

/-- A one-epoch history whose only metric is `loss`. -/
def histW : Hist Nat := ⟨["loss"], fun k => if k = "loss" then [0] else []⟩

/-- A concrete timestamp placeholder. -/
def now0 : List Char := "T".data

/-- A run environment with no pre-existing files, 2 folds, and a fit
collaborator that leaves the model unchanged and yields `histW`. -/
def env61 : Env Nat Nat := ⟨[], 2, fun m _ => (m, histW)⟩

/-- A fit collaborator whose history depends on the model state and fold. -/
def fitW (m i : Nat) : Nat × Hist Nat :=
  (m + 1, ⟨["loss"], fun k => if k = "loss" then [m + i] else []⟩)

/-- A directory listing already containing a report for batch key 120. -/
def files6 : List (List Char) := [("report120_20260101.csv".data)]

/-- A run environment whose directory already holds `files6`. -/
def env6 : Env Nat Nat := ⟨files6, 2, fun m _ => (m, histW)⟩

/-- Hyper-parameter ranges with one empty range (`filter_num2`). -/
def hp_empty : CNN_hyper_params := ⟨[4, 8], [], [1], [16], [8]⟩

/-! ### Supporting lemmas: decimal digit strings -/

lemma digitChar_mem (d : Nat) : digitChar d ∈ ("0123456789".data) := by
  unfold digitChar
  repeat' split
  all_goals decide

lemma digitChar_val {d : Nat} (hd : d < 10) : (digitChar d).toNat - 48 = d := by
  interval_cases d <;> decide

lemma natReprAux_fuel (f1 : Nat) :
    ∀ (f2 n : Nat) (acc : List Char), n < f1 → n < f2 →
      natReprAux f1 n acc = natReprAux f2 n acc := by
  induction f1 with
  | zero => intro f2 n acc h1 _; omega
  | succ f ih =>
    intro f2 n acc h1 h2
    obtain ⟨g, rfl⟩ : ∃ g, f2 = g + 1 := ⟨f2 - 1, by omega⟩
    rw [natReprAux, natReprAux]
    by_cases h : n < 10
    · rw [if_pos h, if_pos h]
    · rw [if_neg h, if_neg h]
      have hd : n / 10 < n := Nat.div_lt_self (by omega) (by omega)
      rw [ih g (n / 10) _ (by omega) (by omega)]

lemma natReprAux_append (fuel : Nat) :
    ∀ (n : Nat) (acc : List Char), n < fuel →
      natReprAux fuel n acc = natReprAux fuel n [] ++ acc := by
  induction fuel with
  | zero => intro n acc h; omega
  | succ f ih =>
    intro n acc h
    rw [natReprAux, natReprAux]
    by_cases h10 : n < 10
    · rw [if_pos h10, if_pos h10]
      simp
    · rw [if_neg h10, if_neg h10]
      have hd : n / 10 < n := Nat.div_lt_self (by omega) (by omega)
      rw [ih (n / 10) _ (by omega), ih (n / 10) (digitChar (n % 10) :: []) (by omega)]
      simp

lemma natRepr_eq (n : Nat) :
    natRepr n =
      if n < 10 then [digitChar n]
      else natRepr (n / 10) ++ [digitChar (n % 10)] := by
  rw [natRepr, natReprAux]
  by_cases h : n < 10
  · rw [if_pos h, if_pos h]
  · rw [if_neg h, if_neg h]
    have hd : n / 10 < n := Nat.div_lt_self (by omega) (by omega)
    rw [natReprAux_append n (n / 10) (digitChar (n % 10) :: []) (by omega),
      natReprAux_fuel n (n / 10 + 1) (n / 10) [] (by omega) (by omega)]
    rfl

lemma natRepr_mem {n : Nat} {c : Char} (hc : c ∈ natRepr n) :
    c ∈ ("0123456789".data) := by
  induction n using Nat.strong_induction_on with
  | _ n ih =>
    rw [natRepr_eq] at hc
    split at hc
    · simp only [List.mem_singleton] at hc
      exact hc ▸ digitChar_mem n
    · rename_i h
      rcases List.mem_append.1 hc with h1 | h1
      · exact ih (n / 10) (Nat.div_lt_self (by omega) (by omega)) h1
      · simp only [List.mem_singleton] at h1
        exact h1 ▸ digitChar_mem (n % 10)

lemma digit_not_ms {c : Char} (hc : c ∈ ("0123456789".data)) :
    c ≠ 'm' ∧ c ≠ 's' := by
  fin_cases hc <;> exact ⟨by decide, by decide⟩

lemma pyInt_natRepr (n : Nat) : pyInt (natRepr n) = n := by
  induction n using Nat.strong_induction_on with
  | _ n ih =>
    rw [natRepr_eq]
    split
    · rename_i h
      show 0 * 10 + ((digitChar n).toNat - 48) = n
      rw [digitChar_val h]
      omega
    · rename_i h
      unfold pyInt
      rw [List.foldl_append]
      show pyInt (natRepr (n / 10)) * 10 + ((digitChar (n % 10)).toNat - 48) = n
      rw [ih (n / 10) (Nat.div_lt_self (by omega) (by omega)),
        digitChar_val (Nat.mod_lt n (by omega))]
      omega

/-! ### Supporting lemmas: `startsWithL`, `pyReplace`, `pySplitS` on keys -/

lemma startsWithL_append_self (p t : List Char) :
    startsWithL (p ++ t) p = true := by
  induction p with
  | nil => cases t <;> rfl
  | cons c cs ih => simp [startsWithL, ih]

lemma pyReplace_no_m {t : List Char} (ht : ∀ c ∈ t, c ≠ 'm') (rep : List Char) :
    pyReplace t ("models".data) rep = t := by
  induction t with
  | nil => rw [pyReplace]
  | cons c cs ih =>
    have hne : ¬(("models".data) ≠ [] ∧
        startsWithL (c :: cs) ("models".data) = true) := by
      intro hmatch
      have h2 := hmatch.2
      rw [show ("models".data) = 'm' :: ("odels".data) from rfl] at h2
      simp only [startsWithL, Bool.and_eq_true, beq_iff_eq] at h2
      exact ht c (List.mem_cons_self c cs) h2.1
    rw [pyReplace, dif_neg hne, ih (fun x hx => ht x (List.mem_cons_of_mem c hx))]

lemma pyReplace_append_key {t : List Char} (ht : ∀ c ∈ t, c ≠ 'm') :
    pyReplace (("models".data) ++ t) ("models".data) ("report".data) =
      ("report".data) ++ t := by
  rw [show ("models".data) ++ t = 'm' :: (("odels".data) ++ t) from rfl]
  rw [pyReplace, dif_pos ⟨by decide,
    show startsWithL (("models".data) ++ t) ("models".data) = true from
      startsWithL_append_self _ _⟩]
  rw [show List.drop (("models".data).length) ('m' :: (("odels".data) ++ t)) = t
      from rfl]
  rw [pyReplace_no_m ht]

lemma pyReplace_mkKey (k : Nat) :
    pyReplace (mkKey k) ("models".data) ("report".data) =
      ("report".data) ++ natRepr k := by
  rw [mkKey]
  exact pyReplace_append_key (fun c hc => (digit_not_ms (natRepr_mem hc)).1)

lemma pySplitS_no_s {t : List Char} (ht : ∀ c ∈ t, c ≠ 's') :
    pySplitS t = [t] := by
  induction t with
  | nil => rfl
  | cons c cs ih =>
    rw [pySplitS]
    rw [if_neg (ht c (List.mem_cons_self c cs)),
      ih (fun x hx => ht x (List.mem_cons_of_mem c hx))]

lemma pySplitS_mkKey (k : Nat) :
    pySplitS (mkKey k) = [("model".data), natRepr k] := by
  have htail : pySplitS (natRepr k) = [natRepr k] :=
    pySplitS_no_s (fun c hc => (digit_not_ms (natRepr_mem hc)).2)
  rw [show mkKey k = 'm' :: 'o' :: 'd' :: 'e' :: 'l' :: 's' :: natRepr k from rfl]
  simp [pySplitS, htail]

lemma pyInt_key (k : Nat) :
    pyInt ((pySplitS (mkKey k)).getD 1 []) = k := by
  rw [pySplitS_mkKey]
  exact pyInt_natRepr k

/-! ### Supporting lemmas: contiguous chunks -/

lemma join_chunks {α : Type} (L : Nat) (hL : 0 < L) :
    ∀ (k : Nat) (l : List α), l.length ≤ k * L →
      ((List.range k).map (fun x => (l.drop (x * L)).take L)).flatten = l := by
  intro k
  induction k with
  | zero =>
    intro l h
    simp only [Nat.zero_mul, Nat.le_zero, List.length_eq_zero] at h
    simp [h]
  | succ k ih =>
    intro l h
    rw [List.range_succ_eq_map, List.map_cons, List.map_map]
    have hcomp :
        ((fun x => (l.drop (x * L)).take L) ∘ Nat.succ) =
          (fun x => ((l.drop L).drop (x * L)).take L) := by
      funext x
      simp only [Function.comp]
      rw [List.drop_drop]
      have hx : x * L + L = Nat.succ x * L := by rw [Nat.succ_mul]
      rw [Nat.add_comm L (x * L), hx]
    rw [hcomp]
    have hlen : (l.drop L).length ≤ k * L := by
      rw [List.length_drop]
      have hh1 : Nat.succ k * L = k * L + L := Nat.succ_mul k L
      have hh2 : (k + 1) * L = k * L + L := by rw [Nat.add_mul, Nat.one_mul]
      omega
    rw [List.flatten_cons, ih (l.drop L) hlen, Nat.zero_mul, List.drop_zero]
    exact List.take_append_drop L l

lemma ceil_div_mul_ge {n L : Nat} (hL : 0 < L) : n ≤ ((n + L - 1) / L) * L := by
  have h2 : n + L - 1 < (((n + L - 1) / L) + 1) * L :=
    (Nat.div_lt_iff_lt_mul hL).mp (Nat.lt_succ_self _)
  rw [Nat.add_mul, Nat.one_mul] at h2
  generalize ((n + L - 1) / L) * L = A at h2 ⊢
  omega

lemma ceil_div_mul_le (n L : Nat) : ((n + L - 1) / L) * L ≤ n + L - 1 :=
  Nat.div_mul_le_self _ _

lemma ceil_div_pos {n L : Nat} (hL : 0 < L) (hn : 0 < n) :
    1 ≤ (n + L - 1) / L := by
  rw [Nat.one_le_div_iff hL]
  omega

/-! ### Supporting lemmas: the fold loop and enumeration -/

lemma cv_model_loop_succ {M V : Type} (fit : M → Nat → M × Hist V) (m : M)
    (n : Nat) :
    cv_model_loop fit m (n + 1) =
      ((fit (cv_model_loop fit m n).1 n).1,
       some (fit (cv_model_loop fit m n).1 n).2,
       (cv_model_loop fit m n).2.2 ++ [n]) := by
  unfold cv_model_loop
  rw [List.range_succ, List.foldl_append]
  rfl

lemma cv_model_loop_log {M V : Type} (fit : M → Nat → M × Hist V) (m : M)
    (K : Nat) : (cv_model_loop fit m K).2.2 = List.range K := by
  induction K with
  | zero => rfl
  | succ n ih =>
    rw [cv_model_loop_succ, List.range_succ]
    simp [ih]

lemma enum_map_comp {α β : Type} (l : List α) (f : Nat → β) :
    l.enum.map (fun p => f p.1) = (List.range l.length).map f := by
  have h1 : (fun (p : Nat × α) => f p.1) = f ∘ Prod.fst := rfl
  rw [h1, ← List.map_map, List.enum_eq_zip_range,
    List.map_fst_zip _ _ (by rw [List.length_range])]

/-- The keys of `dict_partitions`, in order. -/
lemma dict_partitions_keys_eq {M : Type} (ms : List M) (L : Nat) :
    (dict_partitions ms L).map Prod.fst =
      if ms.length ≤ L then [mkKey L]
      else (List.range ((ms.length + L - 1) / L)).map
        (fun i => mkKey ((i + 1) * L)) := by
  rw [dict_partitions]
  split
  · rfl
  · have hlen : (partition_batches ms L).length = (ms.length + L - 1) / L := by
      rw [partition_batches, List.length_map, List.length_range]
    calc ((partition_batches ms L).enum.map
            (fun p => (mkKey ((p.1 + 1) * L), p.2))).map Prod.fst
        = (partition_batches ms L).enum.map (fun p => mkKey ((p.1 + 1) * L)) := by
          rw [List.map_map]
          rfl
      _ = (List.range (partition_batches ms L).length).map
            (fun i => mkKey ((i + 1) * L)) :=
          enum_map_comp (partition_batches ms L) (fun i => mkKey ((i + 1) * L))
      _ = (List.range ((ms.length + L - 1) / L)).map
            (fun i => mkKey ((i + 1) * L)) := by rw [hlen]

/-- `get_partition_number` recovers exactly the numeric batch keys encoded in
the dictionary keys, in order. -/
lemma get_partition_number_eq {M : Type} (ms : List M) :
    get_partition_number ms =
      if ms.length ≤ 60 then [60]
      else (List.range ((ms.length + 60 - 1) / 60)).map (fun i => (i + 1) * 60) := by
  have h1 : get_partition_number ms =
      ((dict_partitions ms 60).map Prod.fst).map
        (fun k => pyInt ((pySplitS k).getD 1 [])) := by
    rw [get_partition_number, List.map_map]
    rfl
  rw [h1, dict_partitions_keys_eq]
  split
  · simp only [List.map_cons, List.map_nil]
    rw [pyInt_key]
  · rw [List.map_map]
    have h2 : ((fun k => pyInt ((pySplitS k).getD 1 [])) ∘
        (fun i => mkKey ((i + 1) * 60))) = (fun i => (i + 1) * 60) := by
      funext i
      exact pyInt_key ((i + 1) * 60)
    rw [h2]

/-! ### Claim theorems -/

/-- C1, counterexample.  The claim states that for a sequence of at most
`partition_length` models the result of `partitions_split` is a one-element
sequence of batches whose single batch contains everything.  At the concrete
input `[0, 1, 2]` with `partition_length = 60` the code instead returns the
flat three-element copy `list(self.all_models)` itself (`Sum.inl`), not a
list of batches (`Sum.inr`), so the claim as stated is false. -/
theorem C1_partitions_split_cex :
    partitions_split ([0, 1, 2] : List Nat) 60 = Sum.inl [0, 1, 2] ∧
    (partitions_split ([0, 1, 2] : List Nat) 60).isRight = false := by
  decide

/-- C1, amended: for positive `partition_length`, when the stored sequence
has at most `partition_length` elements `partitions_split` returns the flat
sequence itself (the single batch's contents, unwrapped); otherwise it
returns `ceil(len / partition_length)` batches — contiguous ordered slices
whose concatenation reconstructs the original sequence exactly (hence
disjoint and order-preserving), each of exactly `partition_length` items
except possibly the last. -/
theorem C1_partitions_split_amended {M : Type} (ms : List M) (L : Nat)
    (hL : 0 < L) :
    (ms.length ≤ L → partitions_split ms L = Sum.inl ms) ∧
    (L < ms.length →
      partitions_split ms L = Sum.inr (partition_batches ms L) ∧
      (partition_batches ms L).length = (ms.length + L - 1) / L ∧
      (partition_batches ms L).flatten = ms ∧
      (partition_batches ms L).dropLast.all (fun b => b.length == L) = true) := by
  constructor
  · intro h
    rw [partitions_split, if_pos h]
  · intro h
    have hnotle : ¬ ms.length ≤ L := not_le.mpr h
    refine ⟨by rw [partitions_split, if_neg hnotle], ?_, ?_, ?_⟩
    · rw [partition_batches, List.length_map, List.length_range]
    · exact join_chunks L hL _ ms (ceil_div_mul_ge hL)
    · rw [List.all_eq_true]
      intro b hb
      rw [beq_iff_eq]
      obtain ⟨m, hm⟩ : ∃ m, (ms.length + L - 1) / L = m + 1 := by
        have h1 := ceil_div_pos hL (show 0 < ms.length by omega)
        exact ⟨(ms.length + L - 1) / L - 1, by omega⟩
      rw [partition_batches, hm, List.range_succ, List.map_append,
        List.map_cons, List.map_nil, List.dropLast_concat] at hb
      obtain ⟨i, hi, rfl⟩ := List.mem_map.1 hb
      rw [List.mem_range] at hi
      have hle1 : (i + 1) * L ≤ m * L := Nat.mul_le_mul (by omega) (le_refl L)
      have hle2 : (m + 1) * L ≤ ms.length + L - 1 := by
        have h2 := ceil_div_mul_le ms.length L
        rw [hm] at h2
        exact h2
      have he1 : (i + 1) * L = i * L + L := by rw [Nat.add_mul, Nat.one_mul]
      have he2 : (m + 1) * L = m * L + L := by rw [Nat.add_mul, Nat.one_mul]
      rw [List.length_take, List.length_drop]
      exact Nat.min_eq_left (by omega)

/-- Witness for C1's amended theorem at the concrete input `[0, 1]` with
`partition_length = 1`. -/
theorem C1_partitions_split_amended_witness :
    0 < 1 ∧
    ((([0, 1] : List Nat).length ≤ 1 →
        partitions_split ([0, 1] : List Nat) 1 = Sum.inl [0, 1]) ∧
     (1 < ([0, 1] : List Nat).length →
        partitions_split ([0, 1] : List Nat) 1 =
          Sum.inr (partition_batches ([0, 1] : List Nat) 1) ∧
        (partition_batches ([0, 1] : List Nat) 1).length =
          (([0, 1] : List Nat).length + 1 - 1) / 1 ∧
        (partition_batches ([0, 1] : List Nat) 1).flatten = [0, 1] ∧
        (partition_batches ([0, 1] : List Nat) 1).dropLast.all
          (fun b => b.length == 1) = true)) :=
  ⟨by decide, C1_partitions_split_amended [0, 1] 1 (by decide)⟩

/-- C7: the keys of the partition dictionary encode exactly the spec's batch
keys.  When the sequence has at most `partition_length` elements the single
entry is keyed `f"models{partition_length}"`; otherwise the 0-based batch
number `i` is keyed `f"models{(i + 1) * partition_length}"`. -/
theorem C7_dict_partitions_keys {M : Type} (ms : List M) (L : Nat) :
    (dict_partitions ms L).map Prod.fst =
      if ms.length ≤ L then [mkKey L]
      else (List.range ((ms.length + L - 1) / L)).map
        (fun i => mkKey ((i + 1) * L)) :=
  dict_partitions_keys_eq ms L

/-- Witness for C7 at the concrete input `List.range 7` with
`partition_length = 3`. -/
theorem C7_dict_partitions_keys_witness :
    (dict_partitions (List.range 7) 3).map Prod.fst =
      if (List.range 7).length ≤ 3 then [mkKey 3]
      else (List.range (((List.range 7).length + 3 - 1) / 3)).map
        (fun i => mkKey ((i + 1) * 3)) :=
  C7_dict_partitions_keys (List.range 7) 3

/-- C10: on a freshly constructed instance, before `build_all_models` runs,
`self.all_models` is the placeholder `""` (zero length, no elements), so
`partitions_split` (default length 60) returns the empty list and
`dict_partitions` returns the one-entry dictionary mapping the single-batch
key `"models60"` to the empty batch; nothing raises. -/
theorem C10_init_state :
    partitions_split init_all_models 60 = Sum.inl ([] : List Char) ∧
    dict_partitions init_all_models 60 = [(mkKey 60, ([] : List Char))] := by
  constructor <;> rfl

/-- C4: for a batch with key `K`, the model index used at lines 232-234 (and
260-262) for reporting and for the saved model file name is
`ind + partition_numb[numb_ind] - 60`.  With `L` the partition length in use
— `auto_grid_cv` always partitions with the default length 60 — this equals
`i + K - L`, is strictly increasing in the enumeration index, and (being a
pure function of its arguments) is identical across repeated invocations. -/
theorem C4_model_index (i j K L : Nat) (hL : L = 60) (hij : i < j) :
    model_index i K = (i : Int) + (K : Int) - (L : Int) ∧
    model_index i K < model_index j K ∧
    model_index i K = model_index i K := by
  subst hL
  unfold model_index
  refine ⟨by omega, by omega, rfl⟩

/-- Witness for C4 at `i = 0 < j = 1`, batch key 120, partition length 60. -/
theorem C4_model_index_witness :
    (60 = 60 ∧ 0 < 1) ∧
    (model_index 0 120 = (0 : Int) + (120 : Int) - (60 : Int) ∧
     model_index 0 120 < model_index 1 120 ∧
     model_index 0 120 = model_index 0 120) :=
  ⟨⟨rfl, by decide⟩, C4_model_index 0 1 120 60 rfl (by decide)⟩

/-- C8, counterexample.  The claim states the combination generator fails
(raises) when a hyper-parameter range is empty.  The body of
`all_combinations` contains no `raise` and no emptiness check: at the
concrete instance `hp_empty` (whose `filter_num2` range is empty) it returns
the empty combination sequence normally, in both running modes, so the claim
as stated is false. -/
theorem C8_all_combinations_cex :
    all_combinations hp_empty "full" = some [] ∧
    all_combinations hp_empty "test" = some [] := by
  constructor <;> rfl

lemma combinations_product_empty {hp : CNN_hyper_params}
    (h : hp.filter_num1 = [] ∨ hp.filter_num2 = [] ∨ hp.num_of_dense = [] ∨
         hp.dense_len1 = [] ∨ hp.dense_len2 = []) :
    combinations_product hp = [] := by
  unfold combinations_product
  rcases h with h | h | h | h | h <;> rw [h] <;> simp

/-- C8, amended: whenever at least one hyper-parameter range is empty, the
combination generator raises nothing and simply returns the empty sequence
of combinations (in both running modes). -/
theorem C8_all_combinations_amended (hp : CNN_hyper_params)
    (h : hp.filter_num1 = [] ∨ hp.filter_num2 = [] ∨ hp.num_of_dense = [] ∨
         hp.dense_len1 = [] ∨ hp.dense_len2 = []) :
    all_combinations hp "full" = some [] ∧
    all_combinations hp "test" = some [] := by
  have hprod := combinations_product_empty h
  unfold all_combinations
  rw [hprod]
  constructor <;> rfl

/-- Witness for C8's amended theorem at the concrete instance `hp_empty`. -/
theorem C8_all_combinations_amended_witness :
    (hp_empty.filter_num1 = [] ∨ hp_empty.filter_num2 = [] ∨
     hp_empty.num_of_dense = [] ∨ hp_empty.dense_len1 = [] ∨
     hp_empty.dense_len2 = []) ∧
    (all_combinations hp_empty "full" = some [] ∧
     all_combinations hp_empty "test" = some []) :=
  ⟨Or.inr (Or.inl rfl),
   C8_all_combinations_amended hp_empty (Or.inr (Or.inl rfl))⟩

/-- C9, counterexample.  The claim states the second convolutional layer's
*filter count* equals `floor(filter_size / 2)`.  In the source,
`floor(filter_size / 2)` is the second layer's *kernel size*; its filter
count is the combination's `conv2_filter_num`.  With `conv2_filter_num = 3`
and the default `filter_size = 5`, the fourth layer is
`Conv1D(filters=3, kernel_size=2)` and `3 ≠ floor(5 / 2) = 2`. -/
theorem C9_model_builder_cex :
    (model_builder 4 3 1 16 8 (0 : Nat) 5).getD 3 Layer.maxpool =
      Layer.conv1d 3 2 (0 : Nat) ∧
    ¬ (3 : Nat) = 5 / 2 := by
  decide

/-- C9, amended: the model has the fixed topology
conv(f1, kernel\x20fs) → activation → pool →
conv(filters = f2, kernel = floor(fs / 2)) → activation → pool → flatten →
N dense blocks (block 1 of width d1, blocks 2..N of width d2, each with
activation) → single-unit output with activation.  The quantity
`floor(filter_size / 2)` is the second convolution's kernel size; its filter
count is the combination's second entry `f2`. -/
theorem C9_model_builder_amended {I : Type} (f1 f2 nd d1 d2 fs : Nat)
    (init : I) (hnd : 1 ≤ nd) :
    model_builder f1 f2 nd d1 d2 init fs =
      [Layer.conv1d f1 fs init, Layer.prelu init, Layer.maxpool,
       Layer.conv1d f2 (fs / 2) init, Layer.prelu init, Layer.maxpool,
       Layer.flatten, Layer.dense d1 init, Layer.prelu init] ++
      ((List.range (nd - 1)).flatMap
        (fun _ => [Layer.dense d2 init, Layer.prelu init])) ++
      [Layer.dense 1 init, Layer.prelu init] := by
  obtain ⟨m, rfl⟩ : ∃ m, nd = m + 1 := ⟨nd - 1, by omega⟩
  rw [model_builder, Nat.add_sub_cancel, List.range_succ_eq_map,
    List.flatMap_cons, List.flatMap_map]
  have hif0 : (if (0 : Nat) < 1
      then [Layer.dense d1 init, Layer.prelu init]
      else [Layer.dense d2 init, Layer.prelu init]) =
      [Layer.dense d1 init, Layer.prelu init] := if_pos (by decide)
  have hifs : (fun (a : Nat) => if Nat.succ a < 1
      then [Layer.dense d1 init, Layer.prelu init]
      else [Layer.dense d2 init, Layer.prelu init]) =
      (fun _ => [Layer.dense d2 init, Layer.prelu init]) := by
    funext a
    rw [if_neg (by omega)]
  rw [hif0, hifs]
  simp [List.append_assoc]

/-- Witness for C9's amended theorem at `nd = 2` and the default
`filter_size = 5`. -/
theorem C9_model_builder_amended_witness :
    1 ≤ 2 ∧
    model_builder 4 3 2 16 8 (0 : Nat) 5 =
      [Layer.conv1d 4 5 (0 : Nat), Layer.prelu 0, Layer.maxpool,
       Layer.conv1d 3 (5 / 2) 0, Layer.prelu 0, Layer.maxpool,
       Layer.flatten, Layer.dense 16 0, Layer.prelu 0] ++
      ((List.range (2 - 1)).flatMap
        (fun _ => [Layer.dense 8 (0 : Nat), Layer.prelu 0])) ++
      [Layer.dense 1 (0 : Nat), Layer.prelu 0] :=
  ⟨by decide, C9_model_builder_amended 4 3 2 16 8 5 0 (by decide)⟩

/-- C5: for every model and configured fold count `K ≥ 2`, the trainer fits
the model on all `K` folds in order (the fold loop visits exactly
`range K`), and the report rows produced for the model are built exclusively
from the history object returned by the fit on the last fold `K - 1`
(performed on the model state reached after the first `K - 1` fits); the
histories of all earlier folds are overwritten in the `history` variable and
never reach `reporting`. -/
theorem C5_last_fold_only {M V : Type} [Inhabited V]
    (fit : M → Nat → M × Hist V) (m : M) (idx : Int) (K : Nat) (hK : 2 ≤ K) :
    (cv_model_loop fit m K).2.2 = List.range K ∧
    model_rows fit m K idx =
      reporting idx (fit (cv_model_loop fit m (K - 1)).1 (K - 1)).2 := by
  obtain ⟨n, rfl⟩ : ∃ n, K = n + 1 := ⟨K - 1, by omega⟩
  rw [Nat.add_sub_cancel]
  refine ⟨cv_model_loop_log fit m (n + 1), ?_⟩
  rw [model_rows, cv_model_loop_succ]

/-- Witness for C5 at the concrete fit collaborator `fitW`, initial model
state `0`, model index `5`, and `K = 2` folds. -/
theorem C5_last_fold_only_witness :
    2 ≤ 2 ∧
    ((cv_model_loop fitW 0 2).2.2 = List.range 2 ∧
     model_rows fitW 0 2 5 =
       reporting 5 (fitW (cv_model_loop fitW 0 (2 - 1)).1 (2 - 1)).2) :=
  ⟨by decide, C5_last_fold_only fitW 0 5 2 (by decide)⟩

/-- C6: for every batch key `K`, `existence_check` on the partition key
`f"models{K}"` returns true iff some file of the current directory listing
has a name starting with `"report"` followed by the decimal digits of `K`;
and when it returns true, the automatic grid search's step for that batch
leaves the run state untouched — no directory creation, no fits, no saves,
no report file. -/
theorem C6_existence_check_skip {M V : Type} [Inhabited V] (env : Env M V)
    (now : List Char) (st : List (Row V) × List (Ev V)) (n K : Nat)
    (batch : List M) :
    (existence_check env.files (mkKey K) = true ↔
      env.files.any
        (fun f => startsWithL f (("report".data) ++ natRepr K)) = true) ∧
    (existence_check env.files (mkKey K) = true →
      auto_batch_step env now st (n, mkKey K, batch) = st) := by
  constructor
  · have hb : existence_check env.files (mkKey K) =
        env.files.any
          (fun f => startsWithL f (("report".data) ++ natRepr K)) := by
      rw [existence_check, pyReplace_mkKey]
    rw [hb]
  · intro hex
    rw [auto_batch_step, if_pos hex]

/-- Witness for C6 at the concrete environment `env6`, whose directory
already holds a `report120_...` file, and batch key 120. -/
theorem C6_existence_check_skip_witness :
    (existence_check env6.files (mkKey 120) = true ↔
      env6.files.any
        (fun f => startsWithL f (("report".data) ++ natRepr 120)) = true) ∧
    (existence_check env6.files (mkKey 120) = true →
      auto_batch_step env6 now0 (([], []) : List (Row Nat) × List (Ev Nat))
        (1, mkKey 120, [7, 8]) = ([], [])) :=
  C6_existence_check_skip env6 now0 ([], []) 1 120 [7, 8]

set_option maxRecDepth 100000 in
/-- C2, evaluation of the code at the failing input: 61 models (two fresh
batches, keys 60 and 120), no pre-existing report files, 2 folds, one-epoch
histories.  Because the `report` accumulator is created once at line 211 —
before the partition loop — and only ever appended to, the file written for
batch 120 holds 61 rows: its own single row plus all 60 rows of batch 60.
In particular it contains the row of model index 0 (`= model_index 0 60`,
batch 60's first model), so it is not the concatenation of batch 120's
per-model reports alone, contradicting the claim. -/
theorem C2_report_accumulation_eval :
    ((csv_tables (auto_grid_cv env61 (List.range 61) now0).2).map
      (fun p => p.2.length) = [60, 61]) ∧
    (((csv_tables (auto_grid_cv env61 (List.range 61) now0).2).getD 1
        ([], [])).2.getD 0 (((0, 0, []) : Row Nat))) =
      ((0 : Int), 1, [(("loss" : String), (0 : Nat))]) ∧
    model_index 0 60 = (0 : Int) := by
  refine ⟨by decide, by decide, rfl⟩

/-- C3, evaluation of the code at the failing input: a training series of 12
samples (`0..11`) with 2 folds.  `TimeSeriesSplit` yields fold 0 = (train
indices `[0, 4)`, validation indices `[4, 8)`).  The `x` argument passed to
`fit` is the slice over the train range, as the claim says; but the
validation data passed is `training_data[:len(series_cv[0][1])] =
[0, 1, 2, 3]` — a prefix overlapping the training slice — and not the slice
`[4, 5, 6, 7]` over the validation range that immediately follows the train
range, contradicting the claim. -/
theorem C3_validation_slice_eval :
    fit_slices (List.range 12) (timeSeriesSplit 2 12) 0 =
      ([0, 1, 2, 3], [0, 1, 2, 3]) ∧
    spec_validation_slice (List.range 12) (timeSeriesSplit 2 12) 0 =
      [4, 5, 6, 7] ∧
    ¬ ([0, 1, 2, 3] : List Nat) = [4, 5, 6, 7] := by
  refine ⟨by decide, by decide, by decide⟩
